import Mathlib

/-!
Verification of the gevent-zeromq green socket / poller core (core.pyx).

The module wraps a native zmq socket so that blocking send/recv cooperate
with the gevent scheduler: two single-shot resolution cells (gevent
AsyncResult objects, one per direction), a persistent read watcher on the
socket notification descriptor whose callback is `__state_changed`, retry
loops in `__send` / `__recv`, a green `_Context.socket` factory and a green
`_Poller.poll`.

Embedding conventions:
* an AsyncResult is a `Cell`: pending, resolved with a value (`set()`), or
  resolved with an error (`set_exception(ZMQError(e))`, carried as the errno);
* a ZMQError is identified with its errno (an `Int`);
* event masks and flag words are `Nat`, combined with the bitwise `&&&` / `|||`
  exactly where the source uses `&` / `|`;
* the native send/recv call is an oracle `Nat → Nat → Except Int A`
  (attempt index, flags passed to the native call) so that the loop's
  interaction with the native layer stays explicit;
* stateful methods become functions on explicit state records, and the
  control flow of the retry loops is additionally recorded as an event trace
  so that ordering properties (reset-before-wait, notify-before-wait,
  watcher-teardown-before-close) are statements about the trace.
-/

/-- zmq `POLLIN` readiness bit. -/
def POLLIN : Nat := 1

/-- zmq `POLLOUT` readiness bit. -/
def POLLOUT : Nat := 2

/-- zmq `NOBLOCK` send/recv flag. -/
def NOBLOCK : Nat := 1

/-- errno designated by zmq as the retry signal. -/
def EAGAIN : Int := 11

/-- errno raised by `_Context.socket` on a closed context. -/
def ENOTSUP : Int := 95

/-- State of one gevent `AsyncResult` cell: pending, resolved by `set()`,
or resolved by `set_exception` with a `ZMQError` errno. -/
inductive Cell where
  | pending : Cell
  | value : Cell
  | error : Int → Cell
deriving DecidableEq, Repr

/-- The readiness-tracking state of a `_Socket`: the native closed flag and
the two direction cells `__readable` and `__writable`. -/
structure SocketState where
  closed : Bool
  readable : Cell
  writable : Cell
deriving DecidableEq, Repr

/-- Result of `self.__getsockopt(EVENTS)` inside the notification handler:
either a `ZMQError` errno or the current event mask. -/
abbrev EventsQuery := Except Int Nat

/-- `_Socket.__state_changed`, given the outcome `q` the `EVENTS` query would
have: on a closed socket resolve both cells with a value and return; on a
query error resolve both cells with that error; otherwise resolve the
writable cell iff `POLLOUT` is set and the readable cell iff `POLLIN` is set. -/
def stateChanged (s : SocketState) (q : EventsQuery) : SocketState :=
  if s.closed then
    { s with writable := Cell.value, readable := Cell.value }
  else
    match q with
    | Except.error e => { s with writable := Cell.error e, readable := Cell.error e }
    | Except.ok events =>
        let s1 := if events &&& POLLOUT ≠ 0 then { s with writable := Cell.value } else s
        if events &&& POLLIN ≠ 0 then { s1 with readable := Cell.value } else s1

/-- `_Socket.__notify_waiters`: resolve both cells, unconditionally. -/
def notifyWaiters (s : SocketState) : SocketState :=
  { s with writable := Cell.value, readable := Cell.value }

/-- First half of `_Socket._wait_write`: `self.__writable = AsyncResult()`,
replacing the writable cell by a fresh pending one. -/
def resetWrite (s : SocketState) : SocketState :=
  { s with writable := Cell.pending }

/-- First half of `_Socket._wait_read`: `self.__readable = AsyncResult()`. -/
def resetRead (s : SocketState) : SocketState :=
  { s with readable := Cell.pending }

/-- C5: whenever `__state_changed` runs, a closed socket resolves both cells
with a success value; a query error resolves both cells with exactly that
error; otherwise the readable cell is resolved exactly when `POLLIN` is set
in the queried mask and the writable cell exactly when `POLLOUT` is set
(a cell whose bit is clear is left as it was). -/
theorem c5_state_changed_cases (s : SocketState) (q : EventsQuery) :
    (s.closed = true →
      (stateChanged s q).readable = Cell.value ∧
      (stateChanged s q).writable = Cell.value) ∧
    (s.closed = false → ∀ e : Int, q = Except.error e →
      (stateChanged s q).readable = Cell.error e ∧
      (stateChanged s q).writable = Cell.error e) ∧
    (s.closed = false → ∀ events : Nat, q = Except.ok events →
      (stateChanged s q).readable =
        (if events &&& POLLIN ≠ 0 then Cell.value else s.readable) ∧
      (stateChanged s q).writable =
        (if events &&& POLLOUT ≠ 0 then Cell.value else s.writable)) := by
  refine ⟨?_, ?_, ?_⟩
  · intro hc
    simp [stateChanged, hc]
  · intro hc e hq
    subst hq
    simp [stateChanged, hc]
  · intro hc events hq
    subst hq
    simp only [stateChanged, hc, Bool.false_eq_true, if_false]
    by_cases hin : events &&& POLLIN ≠ 0 <;> by_cases hout : events &&& POLLOUT ≠ 0 <;>
      simp [hin, hout]

/-- C5 witness: the closed branch at a concrete state, the error branch, and
the mask branch at mask `POLLOUT` (writable resolved, readable untouched). -/
theorem c5_state_changed_cases_witness :
    (stateChanged ⟨true, Cell.pending, Cell.pending⟩ (Except.ok 0)).readable = Cell.value ∧
    (stateChanged ⟨false, Cell.pending, Cell.pending⟩ (Except.error 4)).writable = Cell.error 4 ∧
    (stateChanged ⟨false, Cell.pending, Cell.pending⟩ (Except.ok POLLOUT)).writable = Cell.value ∧
    (stateChanged ⟨false, Cell.pending, Cell.pending⟩ (Except.ok POLLOUT)).readable = Cell.pending := by
  refine ⟨((c5_state_changed_cases ⟨true, Cell.pending, Cell.pending⟩ (Except.ok 0)).1 rfl).1,
    ((c5_state_changed_cases ⟨false, Cell.pending, Cell.pending⟩
      (Except.error 4)).2.1 rfl 4 rfl).2, ?_, ?_⟩
  · have h := ((c5_state_changed_cases ⟨false, Cell.pending, Cell.pending⟩
      (Except.ok POLLOUT)).2.2 rfl POLLOUT rfl).2
    simpa using h
  · have h := ((c5_state_changed_cases ⟨false, Cell.pending, Cell.pending⟩
      (Except.ok POLLOUT)).2.2 rfl POLLOUT rfl).1
    simpa using h

/-!
The missed-wakeup race (C1). The notification watcher installed by
`__setup_events` is persistent, but the descriptor it watches is the zmq
notification descriptor, whose readability signals *unprocessed*
state-change events: the `EVENTS` query that `__state_changed` itself
performs processes the pending events and drains the descriptor. After a
handler run, the watcher has nothing to fire on until the socket generates
a new event — continued readiness alone produces no re-notification (the
spec glossary for edge-triggered: fires on state transition, not on
continued readiness). `EdgeState` models one greenlet interacting with a
direction cell, the socket state, the current native event mask, and
whether an unprocessed notification edge is pending.
-/

/-- Scheduling state of the greenlet performing `_wait_write` / `_wait_read`. -/
inductive TaskState where
  | running : TaskState
  | waiting : TaskState
  | resumed : TaskState
deriving DecidableEq, Repr

/-- One socket plus its environment: the current native event mask, whether
an unprocessed notification edge is pending on the zmq notification
descriptor (the watcher can fire only then), and the one greenlet
interacting with a direction cell. -/
structure EdgeState where
  sock : SocketState
  events : Nat
  pendingEdge : Bool
  task : TaskState
deriving DecidableEq, Repr

/-- The watcher fires — the hub runs `__state_changed` — only on a pending
unprocessed edge; the handler's own `EVENTS` query processes the event and
drains the notification descriptor, consuming the edge. -/
def notifyEdge (m : EdgeState) : EdgeState :=
  if m.pendingEdge then
    { m with sock := stateChanged m.sock (Except.ok m.events), pendingEdge := false }
  else m

/-- A new readiness-change event generated by the zmq socket: the mask
becomes `ev` and the notification descriptor becomes readable again. -/
def newEdge (m : EdgeState) (ev : Nat) : EdgeState :=
  { m with events := ev, pendingEdge := true }

/-- `_Socket._wait_write` up to its suspension point: replace the writable
cell with a fresh pending `AsyncResult`, then block in `get()`. -/
def edgeBeginWaitWrite (m : EdgeState) : EdgeState :=
  { m with sock := resetWrite m.sock, task := TaskState.waiting }

/-- `_Socket._wait_read` up to its suspension point. -/
def edgeBeginWaitRead (m : EdgeState) : EdgeState :=
  { m with sock := resetRead m.sock, task := TaskState.waiting }

/-- `AsyncResult.get` returns (or raises) as soon as the cell it blocks on
is resolved: the hub reschedules the waiting greenlet. -/
def edgeWakeWrite (m : EdgeState) : EdgeState :=
  if m.task = TaskState.waiting ∧ m.sock.writable ≠ Cell.pending then
    { m with task := TaskState.resumed }
  else m

/-- Read-direction analogue of `edgeWakeWrite`. -/
def edgeWakeRead (m : EdgeState) : EdgeState :=
  if m.task = TaskState.waiting ∧ m.sock.readable ≠ Cell.pending then
    { m with task := TaskState.resumed }
  else m

/-- One hub iteration with no further events from the socket: run the
watcher if its descriptor is readable, then resume the write-direction
waiter if its cell is resolved. -/
def hubRoundW (m : EdgeState) : EdgeState :=
  edgeWakeWrite (notifyEdge m)

/-- Read-direction analogue of `hubRoundW`. -/
def hubRoundR (m : EdgeState) : EdgeState :=
  edgeWakeRead (notifyEdge m)

/-- C1 counterexample: at a concrete open socket whose mask is `POLLOUT`
with one unprocessed notification edge, the notification fires while the
direction is ready and resolves the writable cell; a wait begun strictly
afterwards replaces that cell with a fresh pending one, the edge is already
drained, and the hub round is a fixed point that leaves the task waiting:
no amount of further scheduling completes the wait. Resolving readiness
first and then starting the wait loses this wakeup — the wait does not
complete unless the socket generates a new notification. -/
theorem c1_counterexample :
    (notifyEdge ⟨⟨false, Cell.pending, Cell.pending⟩, POLLOUT, true,
        TaskState.running⟩).sock.writable = Cell.value ∧
    (edgeBeginWaitWrite (notifyEdge ⟨⟨false, Cell.pending, Cell.pending⟩, POLLOUT,
        true, TaskState.running⟩)).task = TaskState.waiting ∧
    (edgeBeginWaitWrite (notifyEdge ⟨⟨false, Cell.pending, Cell.pending⟩, POLLOUT,
        true, TaskState.running⟩)).sock.writable = Cell.pending ∧
    (edgeBeginWaitWrite (notifyEdge ⟨⟨false, Cell.pending, Cell.pending⟩, POLLOUT,
        true, TaskState.running⟩)).pendingEdge = false ∧
    hubRoundW (edgeBeginWaitWrite (notifyEdge ⟨⟨false, Cell.pending, Cell.pending⟩,
        POLLOUT, true, TaskState.running⟩)) =
      edgeBeginWaitWrite (notifyEdge ⟨⟨false, Cell.pending, Cell.pending⟩, POLLOUT,
        true, TaskState.running⟩) := by
  decide

/-- C1 as amended: a wait begun strictly after a ready-notification has
fired does not observe that notification's resolution — the reset installs
a fresh pending cell, the handler run has already drained the notification
edge, and the hub round is a fixed point — so the wait completes only
through a subsequent notification; a subsequent notification fired after
the wait began, with the direction ready in its mask, does complete the
wait; and in the converse ordering, where the wait begins while the
notification is still unprocessed, that notification is not lost: the
handler runs after the reset and resolves the fresh cell, resuming the
task (the actual content of the reset-before-wait discipline). This holds
symmetrically for both directions. -/
theorem c1_wait_needs_subsequent_notification (m : EdgeState)
    (hopen : m.sock.closed = false) (hedge : m.pendingEdge = true) :
    (m.events &&& POLLOUT ≠ 0 →
      ((notifyEdge m).sock.writable = Cell.value ∧
       (edgeBeginWaitWrite (notifyEdge m)).sock.writable = Cell.pending ∧
       (edgeBeginWaitWrite (notifyEdge m)).pendingEdge = false ∧
       hubRoundW (edgeBeginWaitWrite (notifyEdge m)) = edgeBeginWaitWrite (notifyEdge m) ∧
       (∀ ev : Nat, ev &&& POLLOUT ≠ 0 →
         (hubRoundW (newEdge (edgeBeginWaitWrite (notifyEdge m)) ev)).task =
           TaskState.resumed) ∧
       (hubRoundW (edgeBeginWaitWrite m)).task = TaskState.resumed)) ∧
    (m.events &&& POLLIN ≠ 0 →
      ((notifyEdge m).sock.readable = Cell.value ∧
       (edgeBeginWaitRead (notifyEdge m)).sock.readable = Cell.pending ∧
       (edgeBeginWaitRead (notifyEdge m)).pendingEdge = false ∧
       hubRoundR (edgeBeginWaitRead (notifyEdge m)) = edgeBeginWaitRead (notifyEdge m) ∧
       (∀ ev : Nat, ev &&& POLLIN ≠ 0 →
         (hubRoundR (newEdge (edgeBeginWaitRead (notifyEdge m)) ev)).task =
           TaskState.resumed) ∧
       (hubRoundR (edgeBeginWaitRead m)).task = TaskState.resumed)) := by
  constructor
  · intro hout
    refine ⟨?_, rfl, ?_, ?_, ?_, ?_⟩
    · by_cases hin : m.events &&& POLLIN = 0 <;>
        simp [notifyEdge, hedge, stateChanged, hopen, hout, hin]
    · simp [edgeBeginWaitWrite, notifyEdge, hedge]
    · simp [hubRoundW, notifyEdge, edgeWakeWrite, edgeBeginWaitWrite, resetWrite, hedge]
    · intro ev hev
      by_cases hin1 : m.events &&& POLLIN = 0 <;> by_cases hin2 : ev &&& POLLIN = 0 <;>
        simp [hubRoundW, notifyEdge, newEdge, edgeWakeWrite, edgeBeginWaitWrite,
          resetWrite, stateChanged, hedge, hopen, hout, hev, hin1, hin2]
    · by_cases hin : m.events &&& POLLIN = 0 <;>
        simp [hubRoundW, notifyEdge, edgeWakeWrite, edgeBeginWaitWrite, resetWrite,
          stateChanged, hedge, hopen, hout, hin]
  · intro hin
    refine ⟨?_, rfl, ?_, ?_, ?_, ?_⟩
    · by_cases hout : m.events &&& POLLOUT = 0 <;>
        simp [notifyEdge, hedge, stateChanged, hopen, hout, hin]
    · simp [edgeBeginWaitRead, notifyEdge, hedge]
    · simp [hubRoundR, notifyEdge, edgeWakeRead, edgeBeginWaitRead, resetRead, hedge]
    · intro ev hev
      by_cases hout1 : m.events &&& POLLOUT = 0 <;> by_cases hout2 : ev &&& POLLOUT = 0 <;>
        simp [hubRoundR, notifyEdge, newEdge, edgeWakeRead, edgeBeginWaitRead,
          resetRead, stateChanged, hedge, hopen, hin, hev, hout1, hout2]
    · by_cases hout : m.events &&& POLLOUT = 0 <;>
        simp [hubRoundR, notifyEdge, edgeWakeRead, edgeBeginWaitRead, resetRead,
          stateChanged, hedge, hopen, hin, hout]

/-- C1 amended-claim witness: at a concrete `POLLOUT`-ready state with one
unprocessed edge, the post-race hub round is a fixed point (the wait does
not complete on its own), and a subsequent notification edge with the write
direction ready resumes the task. -/
theorem c1_wait_needs_subsequent_notification_witness :
    hubRoundW (edgeBeginWaitWrite (notifyEdge ⟨⟨false, Cell.pending, Cell.pending⟩,
        POLLOUT, true, TaskState.running⟩)) =
      edgeBeginWaitWrite (notifyEdge ⟨⟨false, Cell.pending, Cell.pending⟩,
        POLLOUT, true, TaskState.running⟩) ∧
    (hubRoundW (newEdge (edgeBeginWaitWrite (notifyEdge ⟨⟨false, Cell.pending,
        Cell.pending⟩, POLLOUT, true, TaskState.running⟩)) POLLOUT)).task =
      TaskState.resumed := by
  have h := (c1_wait_needs_subsequent_notification
      ⟨⟨false, Cell.pending, Cell.pending⟩, POLLOUT, true, TaskState.running⟩
      rfl rfl).1 (by decide)
  exact ⟨h.2.2.2.1, h.2.2.2.2.1 POLLOUT (by decide)⟩

/-!
The retry loops of `_Socket.__send` / `_Socket.__recv` (wrapped by
`send` / `recv`, whose `finally` clause runs `__notify_waiters` once the
operation concludes). The native call is an oracle indexed by the attempt
number; the loop's interaction with cells and waits is recorded as a trace.
-/

/-- Control-flow events of a green send/recv call. -/
inductive OpEv where
  | attempt : Nat → OpEv
  | notify : OpEv
  | resetW : OpEv
  | waitW : OpEv
  | resetR : OpEv
  | waitR : OpEv
deriving DecidableEq, Repr

/-- The `while True` loop shared by `__send` and `__recv`: attempt the native
call with flags `f`; on success return; on a `ZMQError` whose errno is not
`EAGAIN` re-raise; on `EAGAIN` run `__notify_waiters` and then the direction
wait (`rEv` then `wEv`: `_wait_write` for send, `_wait_read` for recv) and
retry. `fuel` bounds the modelled unrolling; a `none` result is a loop still
running past the modelled horizon. -/
def opGo {A : Type} (f : Nat) (native : Nat → Nat → Except Int A)
    (rEv wEv : OpEv) : Nat → Nat → List OpEv × Option (Except Int A)
  | _, 0 => ([], none)
  | i, fuel + 1 =>
    match native i f with
    | Except.ok v => ([OpEv.attempt f], some (Except.ok v))
    | Except.error e =>
        if e = EAGAIN then
          let rest := opGo f native rEv wEv (i + 1) fuel
          (OpEv.attempt f :: OpEv.notify :: rEv :: wEv :: rest.1, rest.2)
        else ([OpEv.attempt f], some (Except.error e))

/-- `_Socket.__send`: the `NOBLOCK` fast path delegates once to the native
call with the caller's flags; otherwise `OR` in `NOBLOCK` and loop. -/
def sendInner {A : Type} (flags : Nat) (native : Nat → Nat → Except Int A)
    (fuel : Nat) : List OpEv × Option (Except Int A) :=
  if flags &&& NOBLOCK ≠ 0 then ([OpEv.attempt flags], some (native 0 flags))
  else opGo (flags ||| NOBLOCK) native OpEv.resetW OpEv.waitW 0 fuel

/-- `_Socket.__recv`: identical shape, waiting on the readable cell. -/
def recvInner {A : Type} (flags : Nat) (native : Nat → Nat → Except Int A)
    (fuel : Nat) : List OpEv × Option (Except Int A) :=
  if flags &&& NOBLOCK ≠ 0 then ([OpEv.attempt flags], some (native 0 flags))
  else opGo (flags ||| NOBLOCK) native OpEv.resetR OpEv.waitR 0 fuel

/-- `_Socket.send`: `__send` under a `finally` that runs `__notify_waiters`
once the call concludes (if the loop never concludes, the `finally` never
runs). -/
def send {A : Type} (flags : Nat) (native : Nat → Nat → Except Int A)
    (fuel : Nat) : List OpEv × Option (Except Int A) :=
  let r := sendInner flags native fuel
  match r.2 with
  | none => r
  | some v => (r.1 ++ [OpEv.notify], some v)

/-- `_Socket.recv`: `__recv` under the same `finally`. -/
def recv {A : Type} (flags : Nat) (native : Nat → Nat → Except Int A)
    (fuel : Nat) : List OpEv × Option (Except Int A) :=
  let r := recvInner flags native fuel
  match r.2 with
  | none => r
  | some v => (r.1 ++ [OpEv.notify], some v)

/-- One full retry iteration of the send loop: failed attempt, notify,
reset the writable cell, wait on it. -/
def chunkW (f : Nat) : List OpEv :=
  [OpEv.attempt f, OpEv.notify, OpEv.resetW, OpEv.waitW]

/-- One full retry iteration of the recv loop. -/
def chunkR (f : Nat) : List OpEv :=
  [OpEv.attempt f, OpEv.notify, OpEv.resetR, OpEv.waitR]

/-- Shape of the loop when the first `i` attempts raise `EAGAIN` and attempt
`i` settles (succeeds or raises a non-retry error): `i` retry chunks, a final
attempt, and the result of attempt `i` — returned on success, re-raised
otherwise. -/
theorem opGo_structure {A : Type} (f : Nat) (native : Nat → Nat → Except Int A)
    (rEv wEv : OpEv) :
    ∀ (i i0 fuel : Nat), i < fuel →
      (∀ j, j < i → native (i0 + j) f = Except.error EAGAIN) →
      (∀ e, native (i0 + i) f = Except.error e → e ≠ EAGAIN) →
      opGo f native rEv wEv i0 fuel =
        (List.flatten (List.replicate i [OpEv.attempt f, OpEv.notify, rEv, wEv]) ++
          [OpEv.attempt f], some (native (i0 + i) f)) := by
  intro i
  induction i with
  | zero =>
      intro i0 fuel hfuel hpre hset
      obtain ⟨fuel', rfl⟩ : ∃ k, fuel = k + 1 := ⟨fuel - 1, by omega⟩
      cases h : native i0 f with
      | ok v => simp [opGo, h]
      | error e =>
          have he : e ≠ EAGAIN := hset e (by simpa using h)
          simp [opGo, h, he]
  | succ i ih =>
      intro i0 fuel hfuel hpre hset
      obtain ⟨fuel', rfl⟩ : ∃ k, fuel = k + 1 := ⟨fuel - 1, by omega⟩
      have h0 : native i0 f = Except.error EAGAIN := by
        have := hpre 0 (Nat.succ_pos i)
        simpa using this
      have hrest := ih (i0 + 1) fuel' (by omega)
        (fun j hj => by
          have := hpre (j + 1) (by omega)
          simpa [Nat.add_assoc, Nat.add_comm 1 j] using this)
        (fun e he => hset e (by simpa [Nat.add_assoc, Nat.add_comm 1 i] using he))
      have hidx : i0 + 1 + i = i0 + (i + 1) := by omega
      rw [hidx] at hrest
      simp [opGo, h0, hrest, List.replicate_succ]

/-- C2: a `send(data, flags)` / `recv(flags)` call whose flags lack `NOBLOCK`
ORs `NOBLOCK` into the flags of every native attempt and loops: with the
first `i` native attempts raising `EAGAIN` and attempt `i` settling, the call
performs exactly `i` retry iterations (each waiting on the writable cell for
send, on the readable cell for recv), then returns the settling attempt's
outcome — the native result on success, the non-`EAGAIN` error re-raised
unchanged, with no retry after it. -/
theorem c2_send_recv_retry_loop {A : Type} (flags : Nat)
    (native : Nat → Nat → Except Int A) (i fuel : Nat)
    (hnb : flags &&& NOBLOCK = 0) (hfuel : i < fuel)
    (hpre : ∀ j, j < i → native j (flags ||| NOBLOCK) = Except.error EAGAIN)
    (hset : ∀ e, native i (flags ||| NOBLOCK) = Except.error e → e ≠ EAGAIN) :
    send flags native fuel =
      (List.flatten (List.replicate i (chunkW (flags ||| NOBLOCK))) ++
        [OpEv.attempt (flags ||| NOBLOCK), OpEv.notify],
       some (native i (flags ||| NOBLOCK))) ∧
    recv flags native fuel =
      (List.flatten (List.replicate i (chunkR (flags ||| NOBLOCK))) ++
        [OpEv.attempt (flags ||| NOBLOCK), OpEv.notify],
       some (native i (flags ||| NOBLOCK))) := by
  have hW := opGo_structure (flags ||| NOBLOCK) native OpEv.resetW OpEv.waitW
    i 0 fuel hfuel (by simpa using hpre) (by simpa using hset)
  have hR := opGo_structure (flags ||| NOBLOCK) native OpEv.resetR OpEv.waitR
    i 0 fuel hfuel (by simpa using hpre) (by simpa using hset)
  constructor
  · simp [send, sendInner, hnb, hW, chunkW]
  · simp [recv, recvInner, hnb, hR, chunkR]

/-- Oracle for the C2 witness: the first two native attempts raise `EAGAIN`,
the third succeeds with 42. -/
def nativeTwoRetries : Nat → Nat → Except Int Nat :=
  fun j _ => if j < 2 then Except.error EAGAIN else Except.ok 42

/-- C2 witness: a send whose first two attempts raise the retry signal runs
two notify/reset/wait iterations and returns the third attempt's value. -/
theorem c2_send_recv_retry_loop_witness :
    send 0 nativeTwoRetries 3 =
      ([OpEv.attempt 1, OpEv.notify, OpEv.resetW, OpEv.waitW,
        OpEv.attempt 1, OpEv.notify, OpEv.resetW, OpEv.waitW,
        OpEv.attempt 1, OpEv.notify], some (Except.ok 42)) := by
  have h := (c2_send_recv_retry_loop 0 nativeTwoRetries 2 3 (by decide) (by decide)
    (fun j hj => by interval_cases j <;> rfl)
    (fun e he => by simp [nativeTwoRetries] at he)).1
  rw [h]
  rfl

/-- Local check for the reset-before-wait discipline: a wait event is only
legal when the immediately preceding event (`prev`) replaced the very cell
about to be waited on with a fresh pending one. -/
def freshOk (prev : Option OpEv) (e : OpEv) : Bool :=
  match e with
  | OpEv.waitW => match prev with | some OpEv.resetW => true | _ => false
  | OpEv.waitR => match prev with | some OpEv.resetR => true | _ => false
  | _ => true

/-- Every wait event in the trace is immediately preceded by the reset of the
cell it waits on (`prev` is the event just before the trace). -/
def waitsFreshFrom (prev : Option OpEv) : List OpEv → Bool
  | [] => true
  | e :: rest => freshOk prev e && waitsFreshFrom (some e) rest

/-- Local check for the notify-then-reset-then-wait discipline of the retry
loops: a wait is only legal when the two preceding events are the matching
cell reset and, before it, the unconditional `__notify_waiters`. -/
def notifiedOk (prev2 prev1 : Option OpEv) (e : OpEv) : Bool :=
  match e with
  | OpEv.waitW =>
      match prev2, prev1 with
      | some OpEv.notify, some OpEv.resetW => true
      | _, _ => false
  | OpEv.waitR =>
      match prev2, prev1 with
      | some OpEv.notify, some OpEv.resetR => true
      | _, _ => false
  | _ => true

/-- Every wait event in the trace is immediately preceded by the matching
reset, itself immediately preceded by `__notify_waiters`. -/
def waitsNotifiedFrom (prev2 prev1 : Option OpEv) : List OpEv → Bool
  | [] => true
  | e :: rest => notifiedOk prev2 prev1 e && waitsNotifiedFrom prev1 (some e) rest

/-- Appending a trailing notify event (the `finally` clause) preserves the
reset-before-wait discipline. -/
theorem waitsFreshFrom_append_notify :
    ∀ (l : List OpEv) (prev : Option OpEv), waitsFreshFrom prev l = true →
      waitsFreshFrom prev (l ++ [OpEv.notify]) = true := by
  intro l
  induction l with
  | nil => intro prev _; rfl
  | cons e rest ih =>
      intro prev h
      simp only [waitsFreshFrom, Bool.and_eq_true] at h
      simp only [List.cons_append, waitsFreshFrom, Bool.and_eq_true]
      exact ⟨h.1, ih (some e) h.2⟩

/-- Appending a trailing notify event preserves the notify-reset-wait
discipline. -/
theorem waitsNotifiedFrom_append_notify :
    ∀ (l : List OpEv) (prev2 prev1 : Option OpEv), waitsNotifiedFrom prev2 prev1 l = true →
      waitsNotifiedFrom prev2 prev1 (l ++ [OpEv.notify]) = true := by
  intro l
  induction l with
  | nil => intro prev2 prev1 _; rfl
  | cons e rest ih =>
      intro prev2 prev1 h
      simp only [waitsNotifiedFrom, Bool.and_eq_true] at h
      simp only [List.cons_append, waitsNotifiedFrom, Bool.and_eq_true]
      exact ⟨h.1, ih prev1 (some e) h.2⟩

/-- The send-loop trace obeys reset-before-wait, from any context. -/
theorem waitsFresh_opGo_W {A : Type} (f : Nat) (native : Nat → Nat → Except Int A) :
    ∀ (fuel i : Nat) (prev : Option OpEv),
      waitsFreshFrom prev (opGo f native OpEv.resetW OpEv.waitW i fuel).1 = true := by
  intro fuel
  induction fuel with
  | zero => intro i prev; rfl
  | succ fuel ih =>
      intro i prev
      cases h : native i f with
      | ok v => simp [opGo, h, waitsFreshFrom, freshOk]
      | error e =>
          by_cases he : e = EAGAIN
          · subst he
            simp [opGo, h, waitsFreshFrom, freshOk, ih]
          · simp [opGo, h, he, waitsFreshFrom, freshOk]

/-- The recv-loop trace obeys reset-before-wait, from any context. -/
theorem waitsFresh_opGo_R {A : Type} (f : Nat) (native : Nat → Nat → Except Int A) :
    ∀ (fuel i : Nat) (prev : Option OpEv),
      waitsFreshFrom prev (opGo f native OpEv.resetR OpEv.waitR i fuel).1 = true := by
  intro fuel
  induction fuel with
  | zero => intro i prev; rfl
  | succ fuel ih =>
      intro i prev
      cases h : native i f with
      | ok v => simp [opGo, h, waitsFreshFrom, freshOk]
      | error e =>
          by_cases he : e = EAGAIN
          · subst he
            simp [opGo, h, waitsFreshFrom, freshOk, ih]
          · simp [opGo, h, he, waitsFreshFrom, freshOk]

/-- The send-loop trace obeys notify-reset-wait, from any context. -/
theorem waitsNotified_opGo_W {A : Type} (f : Nat) (native : Nat → Nat → Except Int A) :
    ∀ (fuel i : Nat) (prev2 prev1 : Option OpEv),
      waitsNotifiedFrom prev2 prev1 (opGo f native OpEv.resetW OpEv.waitW i fuel).1 = true := by
  intro fuel
  induction fuel with
  | zero => intro i prev2 prev1; rfl
  | succ fuel ih =>
      intro i prev2 prev1
      cases h : native i f with
      | ok v => simp [opGo, h, waitsNotifiedFrom, notifiedOk]
      | error e =>
          by_cases he : e = EAGAIN
          · subst he
            simp [opGo, h, waitsNotifiedFrom, notifiedOk, ih]
          · simp [opGo, h, he, waitsNotifiedFrom, notifiedOk]

/-- The recv-loop trace obeys notify-reset-wait, from any context. -/
theorem waitsNotified_opGo_R {A : Type} (f : Nat) (native : Nat → Nat → Except Int A) :
    ∀ (fuel i : Nat) (prev2 prev1 : Option OpEv),
      waitsNotifiedFrom prev2 prev1 (opGo f native OpEv.resetR OpEv.waitR i fuel).1 = true := by
  intro fuel
  induction fuel with
  | zero => intro i prev2 prev1; rfl
  | succ fuel ih =>
      intro i prev2 prev1
      cases h : native i f with
      | ok v => simp [opGo, h, waitsNotifiedFrom, notifiedOk]
      | error e =>
          by_cases he : e = EAGAIN
          · subst he
            simp [opGo, h, waitsNotifiedFrom, notifiedOk, ih]
          · simp [opGo, h, he, waitsNotifiedFrom, notifiedOk]

/-- C3: every wait inside a send or recv call is immediately preceded by the
replacement of the very cell about to be waited on by a fresh pending cell
(`_wait_write` / `_wait_read` reset their cell as their first action, so a
wait never consumes a leftover resolution: the reset yields a pending cell
whatever the previous cell held). -/
theorem c3_reset_immediately_before_wait {A : Type} (flags : Nat)
    (native : Nat → Nat → Except Int A) (fuel : Nat) :
    (∀ s : SocketState, (resetWrite s).writable = Cell.pending) ∧
    (∀ s : SocketState, (resetRead s).readable = Cell.pending) ∧
    waitsFreshFrom none (send flags native fuel).1 = true ∧
    waitsFreshFrom none (recv flags native fuel).1 = true := by
  refine ⟨fun s => rfl, fun s => rfl, ?_, ?_⟩
  · have hinner : waitsFreshFrom none (sendInner flags native fuel).1 = true := by
      unfold sendInner
      split
      · rfl
      · exact waitsFresh_opGo_W _ _ _ _ _
    unfold send
    cases hr : (sendInner flags native fuel).2 with
    | none => simpa [hr] using hinner
    | some v =>
        simp only [hr]
        exact waitsFreshFrom_append_notify _ _ hinner
  · have hinner : waitsFreshFrom none (recvInner flags native fuel).1 = true := by
      unfold recvInner
      split
      · rfl
      · exact waitsFresh_opGo_R _ _ _ _ _
    unfold recv
    cases hr : (recvInner flags native fuel).2 with
    | none => simpa [hr] using hinner
    | some v =>
        simp only [hr]
        exact waitsFreshFrom_append_notify _ _ hinner

/-- Modelled from the claim's words (C4), not from the source: a pre-wait
notification step that re-checks current readiness and resolves only those
pending cells whose direction is currently ready — the readable cell only if
`POLLIN` holds in the current mask, the writable cell only if `POLLOUT`
holds. To be compared with the source's `notifyWaiters`. -/
def notifyIfReady (s : SocketState) (events : Nat) : SocketState :=
  { s with
    readable := if events &&& POLLIN ≠ 0 then Cell.value else s.readable,
    writable := if events &&& POLLOUT ≠ 0 then Cell.value else s.writable }

/-- C4 counterexample: the step the send loop actually performs before the
wait is `__notify_waiters`, which takes no readiness information at all; on
a socket whose current mask is 0 (neither direction ready) it nevertheless
resolves both pending cells, while the claimed readiness-checked step would
leave both pending. -/
theorem c4_counterexample :
    notifyWaiters ⟨false, Cell.pending, Cell.pending⟩ ≠
      notifyIfReady ⟨false, Cell.pending, Cell.pending⟩ 0 ∧
    (notifyWaiters ⟨false, Cell.pending, Cell.pending⟩).writable = Cell.value ∧
    (notifyWaiters ⟨false, Cell.pending, Cell.pending⟩).readable = Cell.value ∧
    (notifyIfReady ⟨false, Cell.pending, Cell.pending⟩ 0).writable = Cell.pending ∧
    (notifyIfReady ⟨false, Cell.pending, Cell.pending⟩ 0).readable = Cell.pending := by
  decide

/-- C4 as amended: inside the send (and recv) retry loop, after an `EAGAIN`
and immediately before the wait begins, the socket runs `__notify_waiters`,
which resolves both cells unconditionally — regardless of current readiness,
which it does not consult — and only then replaces the cell to be waited on
with a fresh pending one and waits: every wait in the trace is immediately
preceded by the matching reset, itself immediately preceded by the notify. -/
theorem c4_notify_unconditionally_before_wait {A : Type} (flags : Nat)
    (native : Nat → Nat → Except Int A) (fuel : Nat) :
    (∀ s : SocketState,
      (notifyWaiters s).writable = Cell.value ∧ (notifyWaiters s).readable = Cell.value) ∧
    waitsNotifiedFrom none none (send flags native fuel).1 = true ∧
    waitsNotifiedFrom none none (recv flags native fuel).1 = true := by
  refine ⟨fun s => ⟨rfl, rfl⟩, ?_, ?_⟩
  · have hinner : waitsNotifiedFrom none none (sendInner flags native fuel).1 = true := by
      unfold sendInner
      split
      · rfl
      · exact waitsNotified_opGo_W _ _ _ _ _ _
    unfold send
    cases hr : (sendInner flags native fuel).2 with
    | none => simpa [hr] using hinner
    | some v =>
        simp only [hr]
        exact waitsNotifiedFrom_append_notify _ _ _ hinner
  · have hinner : waitsNotifiedFrom none none (recvInner flags native fuel).1 = true := by
      unfold recvInner
      split
      · rfl
      · exact waitsNotified_opGo_R _ _ _ _ _ _
    unfold recv
    cases hr : (recvInner flags native fuel).2 with
    | none => simpa [hr] using hinner
    | some v =>
        simp only [hr]
        exact waitsNotifiedFrom_append_notify _ _ _ hinner

/-!
`_Socket.close` and `_Context.socket`.
-/

/-- Events of `_Socket.close`: watcher teardown (new-style `stop()` or the
gevent<1.0 `cancel()` fallback) and the delegated native close. -/
inductive CloseEv where
  | stopWatcher : CloseEv
  | cancelWatcher : CloseEv
  | nativeClose : CloseEv
deriving DecidableEq, Repr

/-- What `close` consults: the native closed flag, whether
`getattr3(self, '_state_event', None)` is truthy, and whether the watcher
object has a `stop` method (its absence raises the `AttributeError` the
source catches to fall back to `cancel`). -/
structure CloseCtx where
  closed : Bool
  hasWatcher : Bool
  watcherHasStop : Bool
deriving DecidableEq, Repr

/-- `_Socket.close`: if the socket is not closed and a watcher exists, stop
it (or cancel it when `stop` is absent); then delegate to the native
`close`, after which the socket is closed. Returns the emitted event list
and the post-state. -/
def close (c : CloseCtx) : List CloseEv × CloseCtx :=
  ((if !c.closed && c.hasWatcher then
      [if c.watcherHasStop then CloseEv.stopWatcher else CloseEv.cancelWatcher]
    else []) ++ [CloseEv.nativeClose],
   { c with closed := true })

/-- C6: on an open socket with a watcher, `close` tears the watcher down
(using `stop`, or `cancel` exactly when `stop` is absent) strictly before
the native close — the trace is exactly the teardown event followed by
`nativeClose`; on an already-closed socket no teardown event is emitted; and
a second `close` after a first one performs no watcher teardown. -/
theorem c6_close_teardown_order (c : CloseCtx) :
    (c.closed = false → c.hasWatcher = true →
      (close c).1 =
        [(if c.watcherHasStop then CloseEv.stopWatcher else CloseEv.cancelWatcher),
         CloseEv.nativeClose]) ∧
    (c.closed = true → (close c).1 = [CloseEv.nativeClose]) ∧
    (close (close c).2).1 = [CloseEv.nativeClose] := by
  refine ⟨?_, ?_, ?_⟩
  · intro hc hw
    simp [close, hc, hw]
  · intro hc
    simp [close, hc]
  · simp [close]

/-- C6 witness: an open socket with a gevent<1.0 watcher cancels it before
the native close, and the double close emits no teardown. -/
theorem c6_close_teardown_order_witness :
    (close ⟨false, true, false⟩).1 = [CloseEv.cancelWatcher, CloseEv.nativeClose] ∧
    (close ⟨true, true, true⟩).1 = [CloseEv.nativeClose] := by
  constructor
  · have h := (c6_close_teardown_order ⟨false, true, false⟩).1 rfl rfl
    simpa using h
  · exact (c6_close_teardown_order ⟨true, true, true⟩).2.1 rfl

/-- The state `_Context.socket` consults: the native closed flag. -/
structure CtxState where
  closed : Bool
deriving DecidableEq, Repr

/-- A wrapped green socket as constructed by `_Socket(self, socket_type)`:
bound to its context and socket type, with the two fresh pending cells
installed by `__setup_events`. The factory's return type is this wrapped
kind — a non-wrapped native socket is not a value of it. -/
structure GreenSocket where
  ctx : CtxState
  stype : Int
  state : SocketState
deriving DecidableEq, Repr

/-- `_Context.socket`: raise `ZMQError(ENOTSUP)` on a closed context,
otherwise construct and return a green `_Socket` bound to this context. -/
def contextSocket (c : CtxState) (stype : Int) : Except Int GreenSocket :=
  if c.closed then Except.error ENOTSUP
  else Except.ok ⟨c, stype, ⟨false, Cell.pending, Cell.pending⟩⟩

/-- C9: `socket(type)` on a closed context raises `ZMQError(ENOTSUP)`; on an
open context it always returns a wrapped green socket bound to this context
(with fresh pending cells), never a non-wrapped native socket. -/
theorem c9_context_socket_wrapped (c : CtxState) (t : Int) :
    (c.closed = true → contextSocket c t = Except.error ENOTSUP) ∧
    (c.closed = false →
      contextSocket c t = Except.ok ⟨c, t, ⟨false, Cell.pending, Cell.pending⟩⟩) := by
  constructor
  · intro hc
    simp [contextSocket, hc]
  · intro hc
    simp [contextSocket, hc]

/-- C9 witness: both branches at concrete contexts. -/
theorem c9_context_socket_wrapped_witness :
    contextSocket ⟨true⟩ 3 = Except.error ENOTSUP ∧
    contextSocket ⟨false⟩ 3 =
      Except.ok ⟨⟨false⟩, 3, ⟨false, Cell.pending, Cell.pending⟩⟩ :=
  ⟨(c9_context_socket_wrapped ⟨true⟩ 3).1 rfl,
   (c9_context_socket_wrapped ⟨false⟩ 3).2 rfl⟩

/-!
`_Poller.poll`. Python's `int()` truncates a real-valued timeout toward
zero; the loop does a non-blocking `super().poll(0)` per iteration, returns
on events or a zero timeout, otherwise waits in `gevent.select.select`; a
`gevent.select.error` is translated to a `ZMQError`; a `gevent.Timeout` is
re-raised unless it is, by identity, this call's own timer, in which case
`[]` is returned; the `finally` cancels the timer whenever one was started
(`timeout > 0`). The per-iteration poll results and wait outcomes are
oracles indexed by the iteration number; `tid` is the identity of this
call's timer. -/

/-- Python `int()` on a rational-valued timeout: truncation toward zero. -/
def pyInt (q : ℚ) : Int := if 0 ≤ q then ⌊q⌋ else ⌈q⌉

/-- The timeout normalization at the top of `_Poller.poll`: `None` means
`-1`; then `timeout = int(timeout)`; then any negative value becomes `-1`. -/
def normalizeTimeout (t : Option ℚ) : Int :=
  let t1 : ℚ := match t with | none => -1 | some q => q
  let t2 : Int := pyInt t1
  if t2 < 0 then -1 else t2

/-- Outcome of one cooperative wait (`gevent.select.select`), or of the
exception that interrupts it: a readiness wakeup, an OS-level select error
(its args), or a `gevent.Timeout` from the timer with identity `s`. -/
inductive WaitOutcome where
  | ready : WaitOutcome
  | selErr : List Int → WaitOutcome
  | timerFired : Nat → WaitOutcome
deriving DecidableEq, Repr

/-- How a `poll` call exits: a returned event list (possibly empty), a
`ZMQError` raised from a select error, or a foreign timer's `Timeout`
re-raised. -/
inductive PollExit (R : Type) where
  | events : List R → PollExit R
  | zmqError : List Int → PollExit R
  | reraised : Nat → PollExit R
deriving DecidableEq, Repr

/-- Observable steps of a `poll` call. -/
inductive PollEv where
  | timerStart : Nat → PollEv
  | nbPoll : PollEv
  | selectWait : PollEv
  | timerCancel : Nat → PollEv
deriving DecidableEq, Repr

/-- The `while True` loop of `_Poller.poll`: one non-blocking poll per
iteration; return its events if any, or if the timeout is zero; otherwise
wait, translating a select error into a `ZMQError` and dispatching a caught
`gevent.Timeout` on the identity of its timer. `none` is a loop still
running past the modelled horizon. -/
def pollLoop {R : Type} (polls : Nat → List R) (waits : Nat → WaitOutcome)
    (t : Int) (tid : Nat) : Nat → Nat → List PollEv × Option (PollExit R)
  | _, 0 => ([], none)
  | i, fuel + 1 =>
    let evs := polls i
    if evs.isEmpty = false ∨ t = 0 then ([PollEv.nbPoll], some (PollExit.events evs))
    else
      match waits i with
      | WaitOutcome.ready =>
          let rest := pollLoop polls waits t tid (i + 1) fuel
          (PollEv.nbPoll :: PollEv.selectWait :: rest.1, rest.2)
      | WaitOutcome.selErr args =>
          ([PollEv.nbPoll, PollEv.selectWait], some (PollExit.zmqError args))
      | WaitOutcome.timerFired s =>
          if s = tid then ([PollEv.nbPoll, PollEv.selectWait], some (PollExit.events []))
          else ([PollEv.nbPoll, PollEv.selectWait], some (PollExit.reraised s))

/-- `_Poller.poll`: normalize the timeout, start the timer when it is
positive, run the loop, and (in `finally`, so on every exit) cancel the
timer when one was started. -/
def pollerPoll {R : Type} (polls : Nat → List R) (waits : Nat → WaitOutcome)
    (timeout : Option ℚ) (tid : Nat) (fuel : Nat) :
    List PollEv × Option (PollExit R) :=
  let t := normalizeTimeout timeout
  let pre : List PollEv := if 0 < t then [PollEv.timerStart tid] else []
  let r := pollLoop polls waits t tid 0 fuel
  match r.2 with
  | none => (pre ++ r.1, none)
  | some x =>
      (pre ++ r.1 ++ (if 0 < t then [PollEv.timerCancel tid] else []), some x)

/-- C7 counterexample: `-1/2` is a negative timeout, yet `int()` truncates
it toward zero to `0`, so the call does not wait indefinitely: with nothing
ready it performs one non-blocking poll and returns `[]` immediately,
starting no timer and never entering the cooperative wait. -/
theorem c7_counterexample :
    normalizeTimeout (some (-(1 : ℚ) / 2)) ≠ -1 ∧
    normalizeTimeout (some (-(1 : ℚ) / 2)) = 0 ∧
    pollerPoll (fun _ => ([] : List Nat)) (fun _ => WaitOutcome.ready)
        (some (-(1 : ℚ) / 2)) 0 5 =
      ([PollEv.nbPoll], some (PollExit.events [])) := by
  have hpy : pyInt (-(1 : ℚ) / 2) = 0 := by
    unfold pyInt
    rw [if_neg (by norm_num)]
    exact Int.ceil_eq_zero_iff.mpr (Set.mem_Ioc.mpr (by norm_num))
  have hn : normalizeTimeout (some (-(1 : ℚ) / 2)) = 0 := by
    simp [normalizeTimeout, hpy]
  refine ⟨by rw [hn]; decide, hn, ?_⟩
  simp [pollerPoll, hn, pollLoop]

/-- C7 as amended: a missing timeout, or any timeout whose truncation toward
zero is negative (in particular every timeout at most `-1`), is normalized
to `-1`, wait indefinitely; but a negative timeout strictly between `-1` and
`0` truncates to `0` and behaves like a zero timeout; any timeout
normalizing to `0` performs one non-blocking poll over the registration set
and returns its result immediately (possibly the empty list), starting no
timer and never waiting. -/
theorem c7_timeout_normalization {R : Type} (polls : Nat → List R)
    (waits : Nat → WaitOutcome) (tid fuel : Nat) :
    normalizeTimeout none = -1 ∧
    (∀ q : ℚ, q ≤ -1 → normalizeTimeout (some q) = -1) ∧
    (∀ q : ℚ, pyInt q < 0 → normalizeTimeout (some q) = -1) ∧
    (∀ q : ℚ, -1 < q → q < 0 → normalizeTimeout (some q) = 0) ∧
    (∀ timeout : Option ℚ, normalizeTimeout timeout = 0 → 0 < fuel →
      pollerPoll polls waits timeout tid fuel =
        ([PollEv.nbPoll], some (PollExit.events (polls 0)))) := by
  refine ⟨?_, ?_, ?_, ?_, ?_⟩
  · have hpy : pyInt (-1 : ℚ) = -1 := by
      unfold pyInt
      rw [if_neg (by norm_num)]
      rw [show ((-1 : ℚ)) = ((-1 : ℤ) : ℚ) by norm_num, Int.ceil_intCast]
    simp [normalizeTimeout, hpy]
  · intro q hq
    have hpy : pyInt q < 0 := by
      unfold pyInt
      rw [if_neg (by linarith)]
      have : ⌈q⌉ ≤ -1 := Int.ceil_le.mpr (by exact_mod_cast hq)
      omega
    simp [normalizeTimeout, hpy]
  · intro q hpy
    simp [normalizeTimeout, hpy]
  · intro q hq0 hq1
    have hpy : pyInt q = 0 := by
      unfold pyInt
      rw [if_neg (by linarith)]
      exact Int.ceil_eq_zero_iff.mpr (Set.mem_Ioc.mpr ⟨hq0, le_of_lt hq1⟩)
    simp [normalizeTimeout, hpy]
  · intro timeout h hf
    obtain ⟨k, rfl⟩ : ∃ k, fuel = k + 1 := ⟨fuel - 1, by omega⟩
    simp [pollerPoll, h, pollLoop]

/-- C7 witness: the zero-timeout fast path at concrete inputs — one
non-blocking poll, empty result, no timer, no wait. -/
theorem c7_timeout_normalization_witness :
    pollerPoll (fun _ => ([] : List Nat)) (fun _ => WaitOutcome.ready) (some 0) 0 1 =
      ([PollEv.nbPoll], some (PollExit.events [])) := by
  have h := (c7_timeout_normalization (fun _ => ([] : List Nat))
      (fun _ => WaitOutcome.ready) 0 1).2.2.2.2 (some 0) (by
        have hpy : pyInt (0 : ℚ) = 0 := by
          unfold pyInt
          rw [if_pos (le_refl 0)]
          exact Int.floor_eq_zero_iff.mpr (Set.mem_Ico.mpr (by norm_num))
        simp [normalizeTimeout, hpy]) (by omega)
  exact h

/-- C10: a positive fractional timeout strictly below one millisecond is
truncated to `0` by the `int()` conversion, so the call returns immediately
after one non-blocking poll (possibly with an empty result) instead of
waiting the requested sub-millisecond delay. -/
theorem c10_fractional_timeout_truncates {R : Type} (polls : Nat → List R)
    (waits : Nat → WaitOutcome) (tid fuel : Nat) (q : ℚ)
    (h0 : 0 < q) (h1 : q < 1) (hf : 0 < fuel) :
    normalizeTimeout (some q) = 0 ∧
    pollerPoll polls waits (some q) tid fuel =
      ([PollEv.nbPoll], some (PollExit.events (polls 0))) := by
  have hpy : pyInt q = 0 := by
    unfold pyInt
    rw [if_pos h0.le]
    exact Int.floor_eq_zero_iff.mpr (Set.mem_Ico.mpr ⟨h0.le, h1⟩)
  have hn : normalizeTimeout (some q) = 0 := by simp [normalizeTimeout, hpy]
  refine ⟨hn, ?_⟩
  obtain ⟨k, rfl⟩ : ∃ k, fuel = k + 1 := ⟨fuel - 1, by omega⟩
  simp [pollerPoll, hn, pollLoop]

/-- C10 witness: at `timeout = 1/2` the poll returns immediately with the
empty non-blocking result. -/
theorem c10_fractional_timeout_truncates_witness :
    normalizeTimeout (some ((1 : ℚ) / 2)) = 0 ∧
    pollerPoll (fun _ => ([] : List Nat)) (fun _ => WaitOutcome.ready)
        (some ((1 : ℚ) / 2)) 0 1 =
      ([PollEv.nbPoll], some (PollExit.events [])) := by
  have h := c10_fractional_timeout_truncates (fun _ => ([] : List Nat))
    (fun _ => WaitOutcome.ready) 0 1 ((1 : ℚ) / 2) (by norm_num) (by norm_num) (by omega)
  exact h

/-- Shape of the poll loop when nothing becomes ready and iteration `i`'s
wait is interrupted by the timer with identity `s`: `i` poll/wait rounds, a
final poll/wait, and an exit that returns `[]` when `s` is this call's own
timer and re-raises otherwise. -/
theorem pollLoop_timer_exit {R : Type} (polls : Nat → List R)
    (waits : Nat → WaitOutcome) (t : Int) (tid s : Nat) (ht : t ≠ 0) :
    ∀ (i i0 fuel : Nat), i < fuel →
      (∀ j, j ≤ i → polls (i0 + j) = []) →
      (∀ j, j < i → waits (i0 + j) = WaitOutcome.ready) →
      waits (i0 + i) = WaitOutcome.timerFired s →
      pollLoop polls waits t tid i0 fuel =
        (List.flatten (List.replicate i [PollEv.nbPoll, PollEv.selectWait]) ++
          [PollEv.nbPoll, PollEv.selectWait],
         some (if s = tid then PollExit.events [] else PollExit.reraised s)) := by
  intro i
  induction i with
  | zero =>
      intro i0 fuel hfuel hp hw hT
      obtain ⟨k, rfl⟩ : ∃ k, fuel = k + 1 := ⟨fuel - 1, by omega⟩
      have hp0 : polls i0 = [] := by simpa using hp 0 (le_refl 0)
      have hT0 : waits i0 = WaitOutcome.timerFired s := by simpa using hT
      by_cases hs : s = tid <;> simp [pollLoop, hp0, ht, hT0, hs]
  | succ i ih =>
      intro i0 fuel hfuel hp hw hT
      obtain ⟨k, rfl⟩ : ∃ k, fuel = k + 1 := ⟨fuel - 1, by omega⟩
      have hp0 : polls i0 = [] := by simpa using hp 0 (Nat.zero_le _)
      have hw0 : waits i0 = WaitOutcome.ready := by simpa using hw 0 (Nat.succ_pos i)
      have hrest := ih (i0 + 1) k (by omega)
        (fun j hj => by
          have := hp (j + 1) (by omega)
          simpa [Nat.add_assoc, Nat.add_comm 1 j] using this)
        (fun j hj => by
          have := hw (j + 1) (by omega)
          simpa [Nat.add_assoc, Nat.add_comm 1 j] using this)
        (by
          have : i0 + 1 + i = i0 + (i + 1) := by omega
          rw [this]
          exact hT)
      simp [pollLoop, hp0, ht, hw0, hrest, List.replicate_succ]

/-- C8: with a positive (normalized) timeout, no descriptor ever ready and
the wait of iteration `i` interrupted by the timer with identity `s`, the
call checks `s` against its own timer by identity: it returns `[]` exactly
when `s` is its own timer and re-raises the foreign signal otherwise; the
timer is started before the loop and, on this and every other exiting path,
cancelled (the `finally` clause appends the cancel whenever a timer was
started). -/
theorem c8_timer_identity_check_and_cancel {R : Type} (polls : Nat → List R)
    (waits : Nat → WaitOutcome) (timeout : Option ℚ) (tid i fuel : Nat)
    (ht : 0 < normalizeTimeout timeout) (hfuel : i < fuel)
    (hp : ∀ j, j ≤ i → polls j = [])
    (hw : ∀ j, j < i → waits j = WaitOutcome.ready) :
    (∀ s, waits i = WaitOutcome.timerFired s →
      pollerPoll polls waits timeout tid fuel =
        (PollEv.timerStart tid ::
          (List.flatten (List.replicate i [PollEv.nbPoll, PollEv.selectWait]) ++
            [PollEv.nbPoll, PollEv.selectWait, PollEv.timerCancel tid]),
         some (if s = tid then PollExit.events [] else PollExit.reraised s))) ∧
    (∀ (polls2 : Nat → List R) (waits2 : Nat → WaitOutcome) (x : PollExit R),
      (pollerPoll polls2 waits2 timeout tid fuel).2 = some x →
      PollEv.timerCancel tid ∈ (pollerPoll polls2 waits2 timeout tid fuel).1) := by
  constructor
  · intro s hT
    have hloop := pollLoop_timer_exit polls waits (normalizeTimeout timeout) tid s
      (by omega) i 0 fuel hfuel (by simpa using hp) (by simpa using hw)
      (by simpa using hT)
    simp [pollerPoll, hloop, ht]
  · intro polls2 waits2 x hx
    simp only [pollerPoll] at hx ⊢
    cases hr : (pollLoop polls2 waits2 (normalizeTimeout timeout) tid 0 fuel).2 with
    | none =>
        rw [hr] at hx
        simp at hx
    | some y => simp [ht]

/-- C8 witness: a one-iteration run whose wait is interrupted by this call's
own timer (identity 7): the poll returns `[]` and the trace is exactly
timer start, one poll, one wait, timer cancel. -/
theorem c8_timer_identity_check_and_cancel_witness :
    pollerPoll (fun _ => ([] : List Nat)) (fun _ => WaitOutcome.timerFired 7)
        (some 5) 7 1 =
      ([PollEv.timerStart 7, PollEv.nbPoll, PollEv.selectWait, PollEv.timerCancel 7],
       some (PollExit.events [])) := by
  have ht : (0 : Int) < normalizeTimeout (some 5) := by
    have hpy : pyInt (5 : ℚ) = 5 := by
      unfold pyInt
      rw [if_pos (by norm_num)]
      rw [show ((5 : ℚ)) = ((5 : ℤ) : ℚ) by norm_num, Int.floor_intCast]
    simp [normalizeTimeout, hpy]
  have h := (c8_timer_identity_check_and_cancel (fun _ => ([] : List Nat))
      (fun _ => WaitOutcome.timerFired 7) (some 5) 7 0 1 ht (by omega)
      (fun j hj => rfl) (fun j hj => absurd hj (Nat.not_lt_zero j))).1 7 rfl
  simpa using h
